import Mathlib

/-!
Verification development for the go-jlcpcb-parts client library.

The Go sources are shallowly embedded: time stamps and durations are
rationals measured in nanoseconds (Go `time.Duration` is a count of
nanoseconds; the float64 arithmetic of the source is modelled exactly over
ℚ), Go `int` is ℤ, byte slices holding JSON are modelled by an explicit
encoding type, and methods that consult the wall clock (`time.Now()`)
receive the current instant as an argument.
-/

/-- One nanosecond, the unit of Go durations. -/
def timeNanosecond : ℚ := 1

/-- Go `time.Millisecond` in nanoseconds. -/
def timeMillisecond : ℚ := 1000000

/-- Go `time.Second` in nanoseconds. -/
def timeSecond : ℚ := 1000000000

/-- The error taxonomy of errors.go.  `apiError` is the generic
`fmt.Errorf("API error (code %d): %s", code, message)` branch (the
specification calls this kind Unknown); `errorf` stands for the other
plain `fmt.Errorf` sites such as "keyword is required". -/
inductive GoError where
  | productNotFound (productCode : String)
  | rateLimited
  | invalidInput (message : String)
  | apiError (code : ℤ) (message : String)
  | errorf (message : String)
  | cancelled
deriving DecidableEq, Repr

/-- errors.go `errorFromCode`: converts an API status code to an error
(`none` models the Go `nil` error). -/
def errorFromCode (code : ℤ) (message : String) : Option GoError :=
  if code = 200 then none
  else if code = 404 then some (GoError.productNotFound message)
  else if code = 429 then some GoError.rateLimited
  else if code = 400 then some (GoError.invalidInput message)
  else some (GoError.apiError code message)

/-- errors.go `shouldRetry`: a request is retried only when an error is
present and the status code is 429, 503 or 504. -/
def shouldRetry (err : Option GoError) (statusCode : ℤ) : Bool :=
  match err with
  | none => false
  | some _ =>
    if statusCode = 429 then true
    else if statusCode = 503 then true
    else if statusCode = 504 then true
    else false

/-- retry.go `RetryConfig`. -/
structure RetryConfig where
  MaxRetries : ℤ
  InitialBackoff : ℚ
  MaxBackoff : ℚ
  BackoffMultiplier : ℚ
deriving DecidableEq, Repr

/-- retry.go `DefaultRetryConfig`. -/
def DefaultRetryConfig : RetryConfig :=
  { MaxRetries := 3
    InitialBackoff := 100 * timeMillisecond
    MaxBackoff := 10 * timeSecond
    BackoffMultiplier := 2 }

/-- retry.go `RetryConfig.calculateBackoff` (attempt is zero-based; the
claims consider attempt ≥ 0, so the exponent is a natural number). -/
def RetryConfig.calculateBackoff (rc : RetryConfig) (attempt : ℕ) : ℚ :=
  let backoff := rc.InitialBackoff * rc.BackoffMultiplier ^ attempt
  if backoff > rc.MaxBackoff then rc.MaxBackoff else backoff

/-- C9: the classifier maps 200 to no error, 404 to NotFound carrying the
message as identifier, 429 to RateLimited, 400 to InvalidInput carrying
the message, and every other code to the Unknown kind carrying both the
code and the message. -/
theorem errorFromCode_classification (code : ℤ) (message : String) :
    errorFromCode 200 message = none ∧
    errorFromCode 404 message = some (GoError.productNotFound message) ∧
    errorFromCode 429 message = some GoError.rateLimited ∧
    errorFromCode 400 message = some (GoError.invalidInput message) ∧
    (code ≠ 200 → code ≠ 404 → code ≠ 429 → code ≠ 400 →
      errorFromCode code message = some (GoError.apiError code message)) := by
  refine ⟨rfl, rfl, rfl, rfl, ?_⟩
  intro h200 h404 h429 h400
  simp [errorFromCode, h200, h404, h429, h400]

/-- Witness for C9 at the concrete code 500. -/
theorem errorFromCode_classification_witness :
    errorFromCode 200 "ok" = none ∧
    errorFromCode 404 "C1" = some (GoError.productNotFound "C1") ∧
    errorFromCode 429 "m" = some GoError.rateLimited ∧
    errorFromCode 400 "bad" = some (GoError.invalidInput "bad") ∧
    errorFromCode 500 "boom" = some (GoError.apiError 500 "boom") := by
  refine ⟨(errorFromCode_classification 500 "ok").1,
          (errorFromCode_classification 500 "C1").2.1,
          (errorFromCode_classification 500 "m").2.2.1,
          (errorFromCode_classification 500 "bad").2.2.2.1,
          (errorFromCode_classification 500 "boom").2.2.2.2 ?_ ?_ ?_ ?_⟩ <;> decide

/-- C2, counterexample: with a nil error the code refuses to retry even on
status 429, contradicting the claim that retryability is independent of
the error value. -/
theorem shouldRetry_nil_429 : shouldRetry none 429 = false := rfl

/-- C2, amended: for every non-nil error the retry decision is a pure
function of the status code, true exactly on the allow-list 429, 503,
504; with a nil error shouldRetry is false for every status code. -/
theorem shouldRetry_allowList (e : GoError) (s : ℤ) :
    (shouldRetry (some e) s = true ↔ (s = 429 ∨ s = 503 ∨ s = 504)) ∧
    shouldRetry none s = false := by
  constructor
  · constructor
    · intro h
      by_contra hc
      push_neg at hc
      simp [shouldRetry, hc.1, hc.2.1, hc.2.2] at h
    · rintro (h | h | h) <;> simp [shouldRetry, h]
  · rfl

/-- The if-then-else of calculateBackoff is exactly a min. -/
theorem calculateBackoff_eq_min (rc : RetryConfig) (a : ℕ) :
    rc.calculateBackoff a =
      min (rc.InitialBackoff * rc.BackoffMultiplier ^ a) rc.MaxBackoff := by
  by_cases h : rc.InitialBackoff * rc.BackoffMultiplier ^ a > rc.MaxBackoff
  · simp only [RetryConfig.calculateBackoff, if_pos h]
    exact (min_eq_right (le_of_lt h)).symm
  · simp only [RetryConfig.calculateBackoff, if_neg h]
    exact (min_eq_left (not_lt.mp h)).symm

/-- C5: for a configuration with positive initial delay, max delay at
least the initial delay, and multiplier at least 1, calculateBackoff
equals min(initialDelay × multiplier^attempt, maxDelay), is monotonically
non-decreasing in the attempt index and never exceeds maxDelay. -/
theorem calculateBackoff_spec (rc : RetryConfig) (a b : ℕ)
    (hInit : 0 < rc.InitialBackoff)
    (hMax : rc.InitialBackoff ≤ rc.MaxBackoff)
    (hMult : 1 ≤ rc.BackoffMultiplier) :
    rc.calculateBackoff a =
      min (rc.InitialBackoff * rc.BackoffMultiplier ^ a) rc.MaxBackoff ∧
    (a ≤ b → rc.calculateBackoff a ≤ rc.calculateBackoff b) ∧
    rc.calculateBackoff a ≤ rc.MaxBackoff := by
  refine ⟨calculateBackoff_eq_min rc a, ?_, ?_⟩
  · intro hab
    rw [calculateBackoff_eq_min, calculateBackoff_eq_min]
    exact min_le_min
      (mul_le_mul_of_nonneg_left (pow_le_pow_right₀ hMult hab) (le_of_lt hInit))
      le_rfl
  · rw [calculateBackoff_eq_min]
    exact min_le_right _ _

/-- Witness for C5 at the default configuration and attempts 1 ≤ 2. -/
theorem calculateBackoff_spec_witness :
    0 < DefaultRetryConfig.InitialBackoff ∧
    DefaultRetryConfig.InitialBackoff ≤ DefaultRetryConfig.MaxBackoff ∧
    1 ≤ DefaultRetryConfig.BackoffMultiplier ∧
    ((1 : ℕ) ≤ 2 →
      DefaultRetryConfig.calculateBackoff 1 ≤ DefaultRetryConfig.calculateBackoff 2) :=
  ⟨by norm_num [DefaultRetryConfig, timeMillisecond],
   by norm_num [DefaultRetryConfig, timeMillisecond, timeSecond],
   by norm_num [DefaultRetryConfig],
   (calculateBackoff_spec DefaultRetryConfig 1 2
      (by norm_num [DefaultRetryConfig, timeMillisecond])
      (by norm_num [DefaultRetryConfig, timeMillisecond, timeSecond])
      (by norm_num [DefaultRetryConfig])).2.1⟩

/-- ratelimit.go `RateLimiter`: token-bucket state.  The mutex only
serialises access; the sequential model below threads the state
explicitly. -/
structure RateLimiter where
  rate : ℚ
  maxTokens : ℚ
  tokens : ℚ
  lastUpdate : ℚ
deriving DecidableEq, Repr

/-- ratelimit.go `NewRateLimiter` (`time.Now()` is passed in as `now`). -/
def NewRateLimiter (rps : ℚ) (now : ℚ) : RateLimiter :=
  let r := if rps ≤ 0 then 1 else rps
  { rate := r, maxTokens := r, tokens := r, lastUpdate := now }

/-- ratelimit.go `RateLimiter.refill`: adds `elapsed seconds × rate`
tokens, capped at `maxTokens` (time stamps are in nanoseconds, so the
elapsed seconds are `(now - lastUpdate) / timeSecond`). -/
def RateLimiter.refill (rl : RateLimiter) (now : ℚ) : RateLimiter :=
  let elapsed := (now - rl.lastUpdate) / timeSecond
  let t := rl.tokens + elapsed * rl.rate
  { rl with
      tokens := if t > rl.maxTokens then rl.maxTokens else t
      lastUpdate := now }

/-- Result of one `Wait` call: `ok` (token consumed), `cancelled`
(`ctx.Err()` returned from the select), or `pending` (the call is still
blocked in its sleep when the supplied schedule runs out). -/
inductive WaitOutcome where
  | ok
  | cancelled
  | pending
deriving DecidableEq, Repr

/-- ratelimit.go `RateLimiter.Wait`, driven by a schedule: entry i of the
schedule is the instant at which loop iteration i enters the
refill-and-check critical section, paired with whether the caller's
context is already done when that iteration reaches its select.  Each
iteration refills, consumes a token and returns if one is available,
otherwise returns the cancellation if the context fired, otherwise
sleeps and loops. -/
def RateLimiter.Wait : RateLimiter → List (ℚ × Bool) → WaitOutcome × RateLimiter
  | rl, [] => (WaitOutcome.pending, rl)
  | rl, (now, ctxDone) :: rest =>
    let rl2 := rl.refill now
    if rl2.tokens ≥ 1 then
      (WaitOutcome.ok, { rl2 with tokens := rl2.tokens - 1 })
    else if ctxDone then
      (WaitOutcome.cancelled, rl2)
    else
      RateLimiter.Wait rl2 rest

/-- A schedule is chronological from instant t: observation times never
run backwards (Go's monotonic clock guarantees this for `time.Now()`). -/
def chrono : ℚ → List (ℚ × Bool) → Prop
  | _, [] => True
  | t, (now, _) :: rest => t ≤ now ∧ chrono now rest

/-- The cancellation fires before a token becomes available: every
iteration up to the firing one finds the bucket below one token. -/
def cancelFirst : RateLimiter → List (ℚ × Bool) → Prop
  | _, [] => False
  | rl, (now, ctxDone) :: rest =>
    (rl.refill now).tokens < 1 ∧
      (ctxDone = true ∨ cancelFirst (rl.refill now) rest)

/-- Refilling never pushes the bucket above its capacity. -/
theorem refill_le_max (rl : RateLimiter) (now : ℚ) :
    (rl.refill now).tokens ≤ rl.maxTokens := by
  unfold RateLimiter.refill
  by_cases h : rl.tokens + (now - rl.lastUpdate) / timeSecond * rl.rate > rl.maxTokens
  · simp [h]
  · simp only [if_neg h]
    exact not_lt.mp h

/-- Refilling forward in time never removes tokens. -/
theorem refill_mono (rl : RateLimiter) (now : ℚ)
    (hRate : 0 ≤ rl.rate) (hTok : rl.tokens ≤ rl.maxTokens)
    (hNow : rl.lastUpdate ≤ now) :
    rl.tokens ≤ (rl.refill now).tokens := by
  unfold RateLimiter.refill
  have hsec : (0 : ℚ) < timeSecond := by norm_num [timeSecond]
  have helapsed : 0 ≤ (now - rl.lastUpdate) / timeSecond :=
    div_nonneg (by linarith) (le_of_lt hsec)
  have hge : rl.tokens ≤ rl.tokens + (now - rl.lastUpdate) / timeSecond * rl.rate := by
    nlinarith
  by_cases h : rl.tokens + (now - rl.lastUpdate) / timeSecond * rl.rate > rl.maxTokens
  · simpa [h] using hTok
  · simpa [h] using hge

/-- Refilling at the very instant of the last update leaves the limiter
unchanged (zero elapsed time adds zero tokens). -/
theorem refill_self (rl : RateLimiter) (hTok : rl.tokens ≤ rl.maxTokens) :
    rl.refill rl.lastUpdate = rl := by
  have h0 : rl.tokens + (rl.lastUpdate - rl.lastUpdate) / timeSecond * rl.rate
      = rl.tokens := by
    have hsec : (timeSecond : ℚ) ≠ 0 := by norm_num [timeSecond]
    field_simp
  simp only [RateLimiter.refill]
  rw [h0, if_neg (not_lt.mpr hTok)]

/-- C4: if the cancellation fires before a token becomes available, Wait
returns the cancellation outcome and the token count is not decremented
(it can only have grown through refills). -/
theorem wait_cancelled_no_consume (rl : RateLimiter) (sched : List (ℚ × Bool))
    (hRate : 0 ≤ rl.rate) (hTok : rl.tokens ≤ rl.maxTokens)
    (hChrono : chrono rl.lastUpdate sched) (hCancel : cancelFirst rl sched) :
    (rl.Wait sched).1 = WaitOutcome.cancelled ∧
      rl.tokens ≤ (rl.Wait sched).2.tokens := by
  induction sched generalizing rl with
  | nil => exact absurd hCancel (by simp [cancelFirst])
  | cons hd rest ih =>
    obtain ⟨now, ctxDone⟩ := hd
    obtain ⟨hLow, hFire⟩ := hCancel
    obtain ⟨hLe, hChrono2⟩ := hChrono
    have hmono := refill_mono rl now hRate hTok hLe
    have hNotFull : ¬ (rl.refill now).tokens ≥ 1 := not_le.mpr hLow
    cases ctxDone with
    | true =>
      simp only [RateLimiter.Wait, if_neg hNotFull, if_pos rfl]
      exact ⟨rfl, hmono⟩
    | false =>
      have hRec : cancelFirst (rl.refill now) rest := by
        rcases hFire with h | h
        · exact absurd h (by simp)
        · exact h
      have hTok2 : (rl.refill now).tokens ≤ (rl.refill now).maxTokens := by
        have := refill_le_max rl now
        simpa [RateLimiter.refill] using this
      have hChrono3 : chrono (rl.refill now).lastUpdate rest := by
        simpa [RateLimiter.refill] using hChrono2
      have hRate2 : 0 ≤ (rl.refill now).rate := by
        simpa [RateLimiter.refill] using hRate
      obtain ⟨hOut, hLeTok⟩ := ih (rl.refill now) hRate2 hTok2 hChrono3 hRec
      simp only [RateLimiter.Wait, if_neg hNotFull]
      exact ⟨by simpa using hOut, le_trans hmono (by simpa using hLeTok)⟩

/-- Witness for C4: limiter with an empty bucket, context done at the
first iteration. -/
theorem wait_cancelled_no_consume_witness :
    (0 : ℚ) ≤ (RateLimiter.mk 1 1 0 0).rate ∧
    (RateLimiter.mk 1 1 0 0).tokens ≤ (RateLimiter.mk 1 1 0 0).maxTokens ∧
    chrono (RateLimiter.mk 1 1 0 0).lastUpdate [(0, true)] ∧
    cancelFirst (RateLimiter.mk 1 1 0 0) [(0, true)] ∧
    (((RateLimiter.mk 1 1 0 0).Wait [(0, true)]).1 = WaitOutcome.cancelled ∧
      (RateLimiter.mk 1 1 0 0).tokens ≤ ((RateLimiter.mk 1 1 0 0).Wait [(0, true)]).2.tokens) := by
  have hRate : (0 : ℚ) ≤ (RateLimiter.mk 1 1 0 0).rate := by norm_num
  have hTok : (RateLimiter.mk 1 1 0 0).tokens ≤ (RateLimiter.mk 1 1 0 0).maxTokens := by
    norm_num
  have hChrono : chrono (RateLimiter.mk 1 1 0 0).lastUpdate [(0, true)] := by
    simp [chrono]
  have hCancel : cancelFirst (RateLimiter.mk 1 1 0 0) [(0, true)] := by
    refine ⟨?_, Or.inl rfl⟩
    norm_num [RateLimiter.refill]
  exact ⟨hRate, hTok, hChrono, hCancel,
    wait_cancelled_no_consume (RateLimiter.mk 1 1 0 0) [(0, true)]
      hRate hTok hChrono hCancel⟩

/-- The token-bucket invariant of the specification:
`0 ≤ tokens ≤ capacity`. -/
def RateLimiter.Inv (rl : RateLimiter) : Prop :=
  0 ≤ rl.tokens ∧ rl.tokens ≤ rl.maxTokens

/-- C7: the invariant 0 ≤ tokens ≤ capacity holds at construction and is
preserved by every refill (with the clock moving forward) and by every
Wait call, including the token consumption it performs. -/
theorem rateLimiter_invariant :
    (∀ rps now : ℚ, (NewRateLimiter rps now).Inv) ∧
    (∀ (rl : RateLimiter) (now : ℚ), 0 ≤ rl.rate → rl.lastUpdate ≤ now →
      rl.Inv → (rl.refill now).Inv) ∧
    (∀ (rl : RateLimiter) (sched : List (ℚ × Bool)), 0 ≤ rl.rate →
      chrono rl.lastUpdate sched → rl.Inv → ((rl.Wait sched).2).Inv) := by
  have hRefill : ∀ (rl : RateLimiter) (now : ℚ), 0 ≤ rl.rate →
      rl.lastUpdate ≤ now → rl.Inv → (rl.refill now).Inv := by
    intro rl now hRate hNow ⟨hPos, hTok⟩
    refine ⟨le_trans hPos (refill_mono rl now hRate hTok hNow), ?_⟩
    have := refill_le_max rl now
    simpa [RateLimiter.refill] using this
  refine ⟨?_, hRefill, ?_⟩
  · intro rps now
    by_cases h : rps ≤ 0
    · simp only [NewRateLimiter, if_pos h]
      exact ⟨by norm_num, le_rfl⟩
    · simp only [NewRateLimiter, if_neg h]
      exact ⟨le_of_lt (lt_of_not_le h), le_rfl⟩
  · intro rl sched
    induction sched generalizing rl with
    | nil => intro _ _ hInv; exact hInv
    | cons hd rest ih =>
      intro hRate hChrono hInv
      obtain ⟨now, ctxDone⟩ := hd
      obtain ⟨hLe, hChrono2⟩ := hChrono
      have hInv2 : (rl.refill now).Inv := hRefill rl now hRate hLe hInv
      by_cases hFull : (rl.refill now).tokens ≥ 1
      · simp only [RateLimiter.Wait, if_pos hFull]
        constructor
        · show (0 : ℚ) ≤ (rl.refill now).tokens - 1
          linarith [hFull]
        · show (rl.refill now).tokens - 1 ≤ (rl.refill now).maxTokens
          linarith [hInv2.2]
      · cases ctxDone with
        | true =>
          simp only [RateLimiter.Wait, if_neg hFull, if_pos rfl]
          exact hInv2
        | false =>
          simp only [RateLimiter.Wait, if_neg hFull]
          have hRate2 : 0 ≤ (rl.refill now).rate := by
            simpa [RateLimiter.refill] using hRate
          have hChrono3 : chrono (rl.refill now).lastUpdate rest := by
            simpa [RateLimiter.refill] using hChrono2
          simpa using ih (rl.refill now) hRate2 hChrono3 hInv2

/-- Witness for C7: construction, one refill and one Wait run of a
concrete limiter. -/
theorem rateLimiter_invariant_witness :
    (NewRateLimiter 5 0).Inv ∧
    (0 ≤ (NewRateLimiter 5 0).rate ∧ (NewRateLimiter 5 0).lastUpdate ≤ 1 ∧
      ((NewRateLimiter 5 0).refill 1).Inv) ∧
    (chrono (NewRateLimiter 5 0).lastUpdate [(1, false)] ∧
      (((NewRateLimiter 5 0).Wait [(1, false)]).2).Inv) := by
  have h1 := rateLimiter_invariant.1 5 0
  have hRate : (0 : ℚ) ≤ (NewRateLimiter 5 0).rate := by norm_num [NewRateLimiter]
  have hLe : (NewRateLimiter 5 0).lastUpdate ≤ 1 := by norm_num [NewRateLimiter]
  have hChrono : chrono (NewRateLimiter 5 0).lastUpdate [(1, false)] := by
    refine ⟨hLe, trivial⟩
  exact ⟨h1,
    ⟨hRate, hLe, rateLimiter_invariant.2.1 (NewRateLimiter 5 0) 1 hRate hLe h1⟩,
    ⟨hChrono, rateLimiter_invariant.2.2 (NewRateLimiter 5 0) [(1, false)] hRate hChrono h1⟩⟩

/-- A run of n sequential Wait calls, each given only its first loop
iteration at the current instant (so a call that finds no token would
block instead of succeeding); the Bool is true when every call consumed
a token immediately. -/
def RateLimiter.consumeN : RateLimiter → ℕ → Bool × RateLimiter
  | rl, 0 => (true, rl)
  | rl, Nat.succ n =>
    let p := rl.Wait [(rl.lastUpdate, false)]
    if p.1 = WaitOutcome.ok then p.2.consumeN n else (false, p.2)

/-- Any n ≤ tokens sequential immediate Wait calls all succeed. -/
theorem consumeN_ok (n : ℕ) (rl : RateLimiter)
    (hTok : rl.tokens ≤ rl.maxTokens) (hn : (n : ℚ) ≤ rl.tokens) :
    (rl.consumeN n).1 = true := by
  induction n generalizing rl with
  | zero => rfl
  | succ n ih =>
    have hcast : ((n : ℚ) + 1) ≤ rl.tokens := by push_cast at hn; linarith
    have hTok1 : rl.tokens ≥ 1 := by
      have := Nat.cast_nonneg (α := ℚ) n
      linarith
    have hs := refill_self rl hTok
    have hW : rl.Wait [(rl.lastUpdate, false)] =
        (WaitOutcome.ok, { rl with tokens := rl.tokens - 1 }) := by
      show (let rl2 := rl.refill rl.lastUpdate;
        if rl2.tokens ≥ 1 then (WaitOutcome.ok, { rl2 with tokens := rl2.tokens - 1 })
        else if false then (WaitOutcome.cancelled, rl2)
        else RateLimiter.Wait rl2 []) =
        (WaitOutcome.ok, { rl with tokens := rl.tokens - 1 })
      rw [hs]
      rw [if_pos hTok1]
    simp only [RateLimiter.consumeN]
    rw [hW]
    simp only [reduceIte]
    apply ih
    · show rl.tokens - 1 ≤ rl.maxTokens
      linarith
    · show (n : ℚ) ≤ rl.tokens - 1
      linarith

/-- C10: the limiter built by NewRateLimiter has refill rate, capacity
and initial token count all equal — to rps when rps > 0, silently
defaulting to 1 when rps ≤ 0 — and the bucket starts full, so the first
floor(capacity) Wait calls all succeed without blocking. -/
theorem newRateLimiter_spec (rps now : ℚ) :
    (0 < rps → (NewRateLimiter rps now).rate = rps ∧
      (NewRateLimiter rps now).maxTokens = rps ∧
      (NewRateLimiter rps now).tokens = rps) ∧
    (rps ≤ 0 → (NewRateLimiter rps now).rate = 1 ∧
      (NewRateLimiter rps now).maxTokens = 1 ∧
      (NewRateLimiter rps now).tokens = 1) ∧
    ((NewRateLimiter rps now).consumeN
        (Nat.floor (NewRateLimiter rps now).maxTokens)).1 = true := by
  refine ⟨?_, ?_, ?_⟩
  · intro h
    have hn : ¬ rps ≤ 0 := not_le.mpr h
    refine ⟨?_, ?_, ?_⟩ <;> simp [NewRateLimiter, hn]
  · intro h
    refine ⟨?_, ?_, ?_⟩ <;> simp [NewRateLimiter, h]
  · have h0 : (0 : ℚ) ≤ (NewRateLimiter rps now).maxTokens := by
      by_cases h : rps ≤ 0
      · simp [NewRateLimiter, h]
      · have := lt_of_not_le h
        simp only [NewRateLimiter, if_neg h]
        linarith
    apply consumeN_ok
    · exact le_rfl
    · exact Nat.floor_le h0

/-- Witness for C10 at rps = 5 and rps = -2. -/
theorem newRateLimiter_spec_witness :
    ((0 : ℚ) < 5 ∧ (NewRateLimiter 5 0).rate = 5 ∧
      (NewRateLimiter 5 0).maxTokens = 5 ∧ (NewRateLimiter 5 0).tokens = 5) ∧
    ((-2 : ℚ) ≤ 0 ∧ (NewRateLimiter (-2) 0).rate = 1 ∧
      (NewRateLimiter (-2) 0).maxTokens = 1 ∧ (NewRateLimiter (-2) 0).tokens = 1) ∧
    ((NewRateLimiter 5 0).consumeN
        (Nat.floor (NewRateLimiter 5 0).maxTokens)).1 = true := by
  have h5 : (0 : ℚ) < 5 := by norm_num
  have h2 : (-2 : ℚ) ≤ 0 := by norm_num
  exact ⟨⟨h5, (newRateLimiter_spec 5 0).1 h5⟩,
    ⟨h2, (newRateLimiter_spec (-2) 0).2.1 h2⟩,
    (newRateLimiter_spec 5 0).2.2⟩

/-- Go `time.Minute` in nanoseconds. -/
def timeMinute : ℚ := 60 * timeSecond

/-- cache.go `cacheItem`: stored value plus expiry instant.  The value
type is a parameter; the Go code stores byte slices. -/
structure cacheItem (α : Type) where
  data : α
  expiresAt : ℚ

/-- cache.go `MemoryCache`: the item map.  The RWMutex only serialises
access and is dropped from the sequential model. -/
structure MemoryCache (α : Type) where
  items : String → Option (cacheItem α)

/-- cache.go `NewMemoryCache`. -/
def NewMemoryCache (α : Type) : MemoryCache α := ⟨fun _ => none⟩

/-- cache.go `MemoryCache.Get` (`time.Now()` passed as `now`): a missing
key is a miss, and an entry is a miss when `now` is strictly after its
`expiresAt` (Go `time.Now().After(item.expiresAt)`); `none` models the
Go `(nil, false)` return. -/
def MemoryCache.Get {α : Type} (mc : MemoryCache α) (now : ℚ) (key : String) :
    Option α :=
  match mc.items key with
  | none => none
  | some item => if now > item.expiresAt then none else some item.data

/-- cache.go `MemoryCache.Set`: unconditionally stores the value with
expiry `now + ttl`. -/
def MemoryCache.Set {α : Type} (mc : MemoryCache α) (key : String) (value : α)
    (ttl : ℚ) (now : ℚ) : MemoryCache α :=
  ⟨fun k => if k = key then some ⟨value, now + ttl⟩ else mc.items k⟩

/-- C8: for positive ttl, a Set followed immediately by a Get of the same
key returns the value just stored, whatever the prior cache state. -/
theorem set_then_get (α : Type) (mc : MemoryCache α) (k : String) (v : α)
    (ttl now : ℚ) (h : 0 < ttl) :
    (mc.Set k v ttl now).Get now k = some v := by
  have hc : ¬ (now > now + ttl) := not_lt.mpr (by linarith)
  simp [MemoryCache.Set, MemoryCache.Get, hc]

/-- Witness for C8: concrete Set/Get round trip. -/
theorem set_then_get_witness :
    (0 : ℚ) < 5 ∧
      ((NewMemoryCache Bool).Set "k" true 5 0).Get 0 "k" = some true :=
  ⟨by norm_num, set_then_get Bool (NewMemoryCache Bool) "k" true 5 0 (by norm_num)⟩

/-- C3, counterexample: an entry whose expiresAt equals the current
instant is still a hit — Set at time 0 with ttl 5 followed by Get at
time 5 (exactly ttl elapsed, now = expiresAt) returns the value, where
the claim demands a miss. -/
theorem get_at_expiry_is_hit :
    ((NewMemoryCache Bool).Set "k" true 5 0).Get 5 "k" = some true := by
  have hc : ¬ ((5 : ℚ) > 0 + 5) := not_lt.mpr (by norm_num)
  simp [MemoryCache.Set, MemoryCache.Get, hc]

/-- C3, amended: an entry becomes a miss once the current time is
strictly after expiresAt (more than ttl elapsed since Set); at the exact
expiry instant it is still a hit. -/
theorem get_after_expiry (α : Type) (mc : MemoryCache α) (k : String) (v : α)
    (ttl t now : ℚ) (hlate : t + ttl < now) :
    (mc.Set k v ttl t).Get now k = none ∧
    (mc.Set k v ttl t).Get (t + ttl) k = some v := by
  have hmiss : now > t + ttl := hlate
  have hhit : ¬ (t + ttl > t + ttl) := lt_irrefl _
  constructor
  · simp [MemoryCache.Set, MemoryCache.Get, hmiss]
  · simp [MemoryCache.Set, MemoryCache.Get, hhit]

/-- Witness for C3, at Set time 0, ttl 5, Get time 6. -/
theorem get_after_expiry_witness :
    (0 : ℚ) + 5 < 6 ∧
      (((NewMemoryCache Bool).Set "k" true 5 0).Get 6 "k" = none ∧
        ((NewMemoryCache Bool).Set "k" true 5 0).Get (0 + 5) "k" = some true) :=
  ⟨by norm_num,
   get_after_expiry Bool (NewMemoryCache Bool) "k" true 5 0 6 (by norm_num)⟩

/-- models.go `Product`.  Only the JLCPCB part code is kept: the
remaining catalog-schema fields (brand, stock, prices, ...) are the
field-by-field JSON mapping that the specification treats as an external
collaborator, and none of the claims inspects them. -/
structure Product where
  ComponentCode : String
deriving DecidableEq, Repr

/-- models.go `SearchResponse`. -/
structure SearchResponse where
  Products : List Product
  TotalCount : ℤ
  PageSize : ℤ
  PageNumber : ℤ
deriving DecidableEq, Repr

/-- models.go `SearchRequest`: the fields that drive validation, paging
and the cache key.  The advanced filter fields are copied verbatim into
the request body, which is consumed only by the abstracted network
layer. -/
structure SearchRequest where
  Keyword : String
  CurrentPage : ℤ
  PageSize : ℤ
deriving DecidableEq, Repr

/-- A byte slice holding JSON: either the `json.Marshal` encoding of a
search response or bytes that do not decode to one. -/
inductive JsonData where
  | encoded (resp : SearchResponse)
  | corrupt
deriving DecidableEq, Repr

/-- Go `json.Marshal` of a SearchResponse. -/
def jsonMarshalSearch (resp : SearchResponse) : JsonData := JsonData.encoded resp

/-- Go `json.Unmarshal` into a SearchResponse (`none` models a decode
error). -/
def jsonUnmarshalSearch : JsonData → Option SearchResponse
  | JsonData.encoded resp => some resp
  | JsonData.corrupt => none

/-- The `Client` fields read by KeywordSearch (client.go itself is not
among the sources; the cache may be nil). -/
structure Client where
  currency : String
  cache : Option (MemoryCache JsonData)

/-- Observable side effects of the network path of a dispatched lookup:
acquiring a rate-limiter token and invoking the attempt function
(spec §2 data flow places both inside the request dispatcher, behind the
cache check). -/
inductive Event where
  | tokenAcquired
  | attemptInvoked
deriving DecidableEq, Repr

/-- Go `strings.TrimSpace`, restricted to ASCII white space. -/
def trimSpace (s : String) : String :=
  String.mk (((s.data.dropWhile fun ch =>
      ch = ' ' || ch = '\t' || ch = '\n' || ch = '\r').reverse.dropWhile fun ch =>
      ch = ' ' || ch = '\t' || ch = '\n' || ch = '\r').reverse)

/-- products.go `Client.getCacheKeySearch`:
`fmt.Sprintf("search:%s:%s:%d:%d", currency, keyword, page, pageSize)`. -/
def getCacheKeySearch (c : Client) (keyword : String) (page pageSize : ℤ) : String :=
  "search:" ++ c.currency ++ ":" ++ keyword ++ ":" ++ toString page ++ ":" ++
    toString pageSize

/-- products.go `Client.KeywordSearch`.  The network half of the call —
`c.doRequest` followed by `c.parseResponse`, both defined in client.go,
which is not among the sources — is abstracted as the `doReq` argument,
which also reports the side effects (limiter tokens, attempts) it
performed; the JSON request body handed to it does not influence any
claim.  Returns the Go result, the events performed, and the cache
state afterwards. -/
def KeywordSearch (c : Client) (now : ℚ) (req : SearchRequest)
    (doReq : Unit → Except GoError SearchResponse × List Event) :
    Except GoError SearchResponse × List Event × Option (MemoryCache JsonData) :=
  let keyword := trimSpace req.Keyword
  if keyword = "" then
    (Except.error (GoError.errorf "keyword is required"), [], c.cache)
  else
    let page := if req.CurrentPage ≤ 0 then 1 else req.CurrentPage
    let pageSize0 := if req.PageSize ≤ 0 then 50 else req.PageSize
    let pageSize := if pageSize0 > 100 then 100 else pageSize0
    let cacheKey := getCacheKeySearch c keyword page pageSize
    let cachedHit :=
      match c.cache with
      | none => none
      | some mc =>
        match mc.Get now cacheKey with
        | none => none
        | some bytes => jsonUnmarshalSearch bytes
    match cachedHit with
    | some resp => (Except.ok resp, [], c.cache)
    | none =>
      match doReq () with
      | (Except.error e, evs) => (Except.error e, evs, c.cache)
      | (Except.ok resp, evs) =>
        match c.cache with
        | none => (Except.ok resp, evs, none)
        | some mc =>
          (Except.ok resp, evs,
            some (mc.Set cacheKey (jsonMarshalSearch resp) (5 * timeMinute) now))

/-- C6: when the cache reports a hit for the computed cache key (holding
the encoding of a response, as every entry the client itself writes is),
KeywordSearch returns the cached response immediately with an empty
event trace — no rate-limiter token is acquired and the attempt
function is never invoked — and the cache is left unchanged. -/
theorem keywordSearch_cache_hit (c : Client) (now : ℚ) (req : SearchRequest)
    (doReq : Unit → Except GoError SearchResponse × List Event)
    (mc : MemoryCache JsonData) (resp : SearchResponse)
    (hcache : c.cache = some mc)
    (hkw : ¬ trimSpace req.Keyword = "")
    (hhit : mc.Get now (getCacheKeySearch c (trimSpace req.Keyword)
        (if req.CurrentPage ≤ 0 then 1 else req.CurrentPage)
        (if (if req.PageSize ≤ 0 then 50 else req.PageSize) > 100 then 100
         else if req.PageSize ≤ 0 then 50 else req.PageSize)) =
      some (JsonData.encoded resp)) :
    KeywordSearch c now req doReq = (Except.ok resp, [], c.cache) := by
  simp only [KeywordSearch, if_neg hkw, hcache, hhit, jsonUnmarshalSearch]

/-- Fixture for the C6 witness: an empty search response. -/
def respFixture : SearchResponse := ⟨[], 0, 0, 0⟩

/-- Fixture for the C6 witness: a cache holding the encoded fixture
response under the computed search key, expiring at instant 1. -/
def cacheFixture : MemoryCache JsonData :=
  ⟨fun k => if k = "search:USD:resistor:1:50" then
      some ⟨JsonData.encoded respFixture, 1⟩ else none⟩

/-- Fixture for the C6 witness: a USD client using the fixture cache. -/
def clientFixture : Client := ⟨"USD", some cacheFixture⟩

/-- Fixture for the C6 witness: a plain keyword search request. -/
def reqFixture : SearchRequest := ⟨"resistor", 1, 50⟩

/-- Witness for C6 at the concrete fixtures (the network path, if it
were taken, would acquire a token and perform an attempt). -/
theorem keywordSearch_cache_hit_witness :
    clientFixture.cache = some cacheFixture ∧
    (¬ trimSpace reqFixture.Keyword = "") ∧
    cacheFixture.Get 0 (getCacheKeySearch clientFixture (trimSpace reqFixture.Keyword)
        (if reqFixture.CurrentPage ≤ 0 then 1 else reqFixture.CurrentPage)
        (if (if reqFixture.PageSize ≤ 0 then 50 else reqFixture.PageSize) > 100 then 100
         else if reqFixture.PageSize ≤ 0 then 50 else reqFixture.PageSize)) =
      some (JsonData.encoded respFixture) ∧
    KeywordSearch clientFixture 0 reqFixture
        (fun _ => (Except.error GoError.rateLimited,
          [Event.tokenAcquired, Event.attemptInvoked])) =
      (Except.ok respFixture, [], clientFixture.cache) := by
  have h1 : clientFixture.cache = some cacheFixture := rfl
  have h2 : ¬ trimSpace reqFixture.Keyword = "" := by decide
  have h3 : cacheFixture.Get 0 (getCacheKeySearch clientFixture (trimSpace reqFixture.Keyword)
      (if reqFixture.CurrentPage ≤ 0 then 1 else reqFixture.CurrentPage)
      (if (if reqFixture.PageSize ≤ 0 then 50 else reqFixture.PageSize) > 100 then 100
       else if reqFixture.PageSize ≤ 0 then 50 else reqFixture.PageSize)) =
      some (JsonData.encoded respFixture) := by decide
  exact ⟨h1, h2, h3,
    keywordSearch_cache_hit clientFixture 0 reqFixture
      (fun _ => (Except.error GoError.rateLimited,
        [Event.tokenAcquired, Event.attemptInvoked]))
      cacheFixture respFixture h1 h2 h3⟩

/-- Observable outcome of one dispatcher execution: how many attempts
were made, the backoff sleeps performed between them, and the final
error (`none` is success). -/
structure DispatchTrace where
  attemptsMade : ℕ
  sleeps : List ℚ
  result : Option GoError
deriving DecidableEq, Repr

/-- Modelled from the spec: the request dispatcher retry loop (§4.5, §7
of the specification) — `doRequest` lives in client.go, which is not
among the sources.  On the cache-miss path, each iteration acquires a
token, performs attempt i (`attemptFn i` yields its status code and
message), classifies the status; success stops, a retryable failure
with budget remaining sleeps `calculateBackoff(i)` and loops, and
otherwise the last classified error is returned verbatim (no synthetic
retries-exhausted wrapper).  `rem` is the attempt budget remaining. -/
def dispatchGo (rc : RetryConfig) (attemptFn : ℕ → ℤ × String) :
    ℕ → ℕ → DispatchTrace
  | _, 0 => ⟨0, [], none⟩
  | i, Nat.succ rem =>
    let status := (attemptFn i).1
    let msg := (attemptFn i).2
    match errorFromCode status msg with
    | none => ⟨1, [], none⟩
    | some e =>
      if shouldRetry (some e) status = true ∧ 0 < rem then
        let t := dispatchGo rc attemptFn (i + 1) rem
        ⟨t.attemptsMade + 1, rc.calculateBackoff i :: t.sleeps, t.result⟩
      else ⟨1, [], some e⟩

/-- Modelled from the spec: a full dispatcher execution on a cache miss,
with a budget of maxAttempts attempts. -/
def dispatchExecute (rc : RetryConfig) (attemptFn : ℕ → ℤ × String) : DispatchTrace :=
  dispatchGo rc attemptFn 0 rc.MaxRetries.toNat

/-- C1: under the policy (maxAttempts 3, initial delay 100ms,
multiplier 2, max delay 1s), an attempt function that always yields
status 503 drives the dispatcher to exactly 3 attempts with sleeps of
100ms and 200ms between them, after which the last classified error —
the Unknown kind carrying code 503 — is returned verbatim. -/
theorem dispatch_503_three_attempts (msg : String) :
    dispatchExecute ⟨3, 100 * timeMillisecond, 1 * timeSecond, 2⟩
        (fun _ => ((503 : ℤ), msg)) =
      ⟨3, [100 * timeMillisecond, 200 * timeMillisecond],
        some (GoError.apiError 503 msg)⟩ := by
  have e1 : errorFromCode 503 msg = some (GoError.apiError 503 msg) := by
    simp [errorFromCode]
  have s1 : shouldRetry (some (GoError.apiError 503 msg)) 503 = true := by
    simp [shouldRetry]
  have cb0 : RetryConfig.calculateBackoff
      ⟨3, 100 * timeMillisecond, timeSecond, 2⟩ 0 = 100 * timeMillisecond := by
    norm_num [RetryConfig.calculateBackoff, timeMillisecond, timeSecond]
  have cb1 : RetryConfig.calculateBackoff
      ⟨3, 100 * timeMillisecond, timeSecond, 2⟩ 1 = 200 * timeMillisecond := by
    norm_num [RetryConfig.calculateBackoff, timeMillisecond, timeSecond]
  simp only [dispatchExecute]
  norm_num [dispatchGo, e1, s1, cb0, cb1]
